import Mathlib

/-!
Verification of the iDAW engine core against its specification.

This file shallowly embeds the engine components that the checked claims
concern: the transport state machine (TransportState.cpp), the track
processing graph (Track.cpp), the track collection (TrackList.cpp), the
clip/track property serialization (Clip.cpp, Track.cpp) and the tempo
estimator (TempoEstimator.cpp).

Modelling conventions: C++ `double`/`float` values are modelled as
rationals; `juce::Uuid` and `juce::Colour` values are modelled by the
128-bit / ARGB word they denote, as a natural number (their string
round-trip through `toString`/`fromString` is the identity on that word);
an audio buffer is a list of channels, each a list of samples; a MIDI
message is modelled by its status byte, the only byte the embedded code
inspects.
-/

namespace IDAW

/-- `juce::jlimit(lo, hi, v)` on doubles: clamp `v` into `[lo, hi]`. -/
def jlimit (lo hi v : ℚ) : ℚ :=
  if v < lo then lo else if hi < v then hi else v

/-- `juce::jlimit(lo, hi, v)` on ints. -/
def jlimitInt (lo hi v : ℤ) : ℤ :=
  if v < lo then lo else if hi < v then hi else v

/-- Playback states (`TransportState.h`, `enum class State`). -/
inductive TState where
  | Stopped
  | Playing
  | Recording
  | Paused
deriving DecidableEq

/-- Time signature pair (`TransportState.h`, `struct TimeSignature`). -/
structure TimeSignature where
  numerator : ℤ
  denominator : ℤ
deriving DecidableEq

/-- The four typed listener callbacks of `TransportState::Listener`
(`transportStateChanged` / `tempoChanged` / `positionChanged` /
`loopChanged`). -/
inductive Notification where
  | stateChanged
  | tempoChanged
  | positionChanged
  | loopChanged
deriving DecidableEq

/-- The fields of `TransportState` (TransportState.h, lines 163-175),
with their initial values. -/
structure TransportState where
  state : TState := .Stopped
  samplePosition : ℚ := 0
  tempo : ℚ := 120
  sampleRate : ℚ := 44100
  timeSignature : TimeSignature := ⟨4, 4⟩
  loopEnabled : Bool := false
  loopStartSamples : ℚ := 0
  loopEndSamples : ℚ := 0
deriving DecidableEq

/-- A freshly constructed `TransportState` (constructor sets 4/4). -/
def TransportState.initial : TransportState := {}

/-- `TransportState::isPlaying`: Playing or Recording. -/
def TransportState.isPlaying (t : TransportState) : Bool :=
  decide (t.state = .Playing) || decide (t.state = .Recording)

/-- `TransportState::play`: set state to Playing; notify state-changed
only if the previous state was not Playing. -/
def TransportState.play (t : TransportState) : TransportState × List Notification :=
  ({ t with state := .Playing },
   if t.state = .Playing then [] else [.stateChanged])

/-- `TransportState::pause`. -/
def TransportState.pause (t : TransportState) : TransportState × List Notification :=
  ({ t with state := .Paused },
   if t.state = .Paused then [] else [.stateChanged])

/-- `TransportState::stop`: set state to Stopped, reset the position to 0,
and notify both state-changed and position-changed unconditionally. -/
def TransportState.stop (t : TransportState) : TransportState × List Notification :=
  ({ t with state := .Stopped, samplePosition := 0 },
   [.stateChanged, .positionChanged])

/-- `TransportState::startRecording`. -/
def TransportState.startRecording (t : TransportState) : TransportState × List Notification :=
  ({ t with state := .Recording },
   if t.state = .Recording then [] else [.stateChanged])

/-- `TransportState::stopRecording`: only acts when currently Recording. -/
def TransportState.stopRecording (t : TransportState) : TransportState × List Notification :=
  if t.state = .Recording then
    ({ t with state := .Playing }, [.stateChanged])
  else (t, [])

/-- `TransportState::setSamplePosition`: clamp to `>= 0`, always notify. -/
def TransportState.setSamplePosition (t : TransportState) (position : ℚ) :
    TransportState × List Notification :=
  ({ t with samplePosition := max 0 position }, [.positionChanged])

/-- `TransportState::setTempo`: clamp to `[20, 999]`, always notify. -/
def TransportState.setTempo (t : TransportState) (bpm : ℚ) :
    TransportState × List Notification :=
  ({ t with tempo := jlimit 20 999 bpm }, [.tempoChanged])

/-- `TransportState::setTimeSignature`: clamp both parts to `[1, 32]`;
the function body raises no notification at all. -/
def TransportState.setTimeSignature (t : TransportState) (numerator denominator : ℤ) :
    TransportState × List Notification :=
  ({ t with timeSignature := ⟨jlimitInt 1 32 numerator, jlimitInt 1 32 denominator⟩ }, [])

/-- `TransportState::setLooping`: always notify loop-changed. -/
def TransportState.setLooping (t : TransportState) (enabled : Bool) :
    TransportState × List Notification :=
  ({ t with loopEnabled := enabled }, [.loopChanged])

/-- `TransportState::setLoopRange`: the start is clamped to `>= 0`, the
end is clamped to at least the (unclamped) `startSamples` argument;
always notify loop-changed. -/
def TransportState.setLoopRange (t : TransportState) (startSamples endSamples : ℚ) :
    TransportState × List Notification :=
  ({ t with loopStartSamples := max 0 startSamples,
            loopEndSamples := max startSamples endSamples }, [.loopChanged])

/-- `TransportState::advancePosition`: add `numSamples` to the position,
but only when `isPlaying()` holds. -/
def TransportState.advancePosition (t : TransportState) (numSamples : ℤ) : TransportState :=
  if t.isPlaying then { t with samplePosition := t.samplePosition + (numSamples : ℚ) }
  else t

/-- `TransportState::shouldLoop`: looping enabled and position at or past
the loop end. -/
def TransportState.shouldLoop (t : TransportState) : Bool :=
  t.loopEnabled && decide (t.loopEndSamples ≤ t.samplePosition)

/-- `TransportState::performLoopIfNeeded`: if `shouldLoop()`, jump the
position to the loop start and report `true`. -/
def TransportState.performLoopIfNeeded (t : TransportState) : TransportState × Bool :=
  if t.shouldLoop then ({ t with samplePosition := t.loopStartSamples }, true)
  else (t, false)

/-- C2 counterexample: a `setTimeSignature` call that changes the stored
time signature (4/4 to 3/4 on a fresh transport) raises zero typed
notifications, refuting "each call that changes state raises exactly one
corresponding typed notification — never zero". -/
theorem setTimeSignature_changes_state_but_notifies_nothing :
    (TransportState.setTimeSignature .initial 3 4).1.timeSignature ≠
      TransportState.initial.timeSignature ∧
    (TransportState.setTimeSignature .initial 3 4).2 = [] := by
  decide

/-- C2 (amended): the exact notification discipline of the transport's
state-changing operations: `play` / `pause` / `startRecording` raise one
state-changed notification exactly when they change the mode,
`stopRecording` exactly when currently recording; `setTempo`,
`setSamplePosition`, `setLooping` and `setLoopRange` raise exactly one
corresponding notification on every call, changed or not; `stop` raises
two notifications (state-changed then position-changed) on every call;
`setTimeSignature` raises none. -/
theorem transport_notification_discipline (t : TransportState) (bpm pos : ℚ)
    (n d : ℤ) (en : Bool) (s e : ℚ) :
    (t.play.2 = if t.state = .Playing then [] else [.stateChanged]) ∧
    (t.pause.2 = if t.state = .Paused then [] else [.stateChanged]) ∧
    (t.startRecording.2 = if t.state = .Recording then [] else [.stateChanged]) ∧
    (t.stopRecording.2 = if t.state = .Recording then [.stateChanged] else []) ∧
    t.stop.2 = [.stateChanged, .positionChanged] ∧
    (t.setTempo bpm).2 = [.tempoChanged] ∧
    (t.setSamplePosition pos).2 = [.positionChanged] ∧
    (t.setTimeSignature n d).2 = [] ∧
    (t.setLooping en).2 = [.loopChanged] ∧
    (t.setLoopRange s e).2 = [.loopChanged] := by
  refine ⟨rfl, rfl, rfl, ?_, rfl, rfl, rfl, rfl, rfl, rfl⟩
  unfold TransportState.stopRecording
  split <;> rfl

/-- C5: with looping enabled and the position at or past the loop end,
`performLoopIfNeeded` jumps the position to exactly the loop start and
returns `true`, and a second call with no intervening advance leaves the
position unchanged. -/
theorem performLoop_jump_and_idempotent (t : TransportState)
    (hEn : t.loopEnabled = true) (hPos : t.loopEndSamples ≤ t.samplePosition) :
    t.performLoopIfNeeded.2 = true ∧
    t.performLoopIfNeeded.1.samplePosition = t.loopStartSamples ∧
    t.performLoopIfNeeded.1.performLoopIfNeeded.1.samplePosition =
      t.performLoopIfNeeded.1.samplePosition := by
  have hsl : t.shouldLoop = true := by
    simp [TransportState.shouldLoop, hEn, hPos]
  refine ⟨?_, ?_, ?_⟩
  · simp [TransportState.performLoopIfNeeded, hsl]
  · simp [TransportState.performLoopIfNeeded, hsl]
  · simp only [TransportState.performLoopIfNeeded, hsl, if_true]
    split <;> rfl

/-- Witness for C5 at a concrete transport: loop `[10, 50]`, position
100. -/
theorem performLoop_jump_and_idempotent_witness :
    (⟨.Playing, 100, 120, 44100, ⟨4, 4⟩, true, 10, 50⟩ :
        TransportState).performLoopIfNeeded.2 = true ∧
    (⟨.Playing, 100, 120, 44100, ⟨4, 4⟩, true, 10, 50⟩ :
        TransportState).performLoopIfNeeded.1.samplePosition = 10 ∧
    (⟨.Playing, 100, 120, 44100, ⟨4, 4⟩, true, 10, 50⟩ :
        TransportState).performLoopIfNeeded.1.performLoopIfNeeded.1.samplePosition =
      (⟨.Playing, 100, 120, 44100, ⟨4, 4⟩, true, 10, 50⟩ :
        TransportState).performLoopIfNeeded.1.samplePosition :=
  performLoop_jump_and_idempotent _ rfl (by norm_num)

/-- C6: evaluation of `setLoopRange` at the failing input `(-5, -10)`:
the stored loop start is clamped to 0 but the stored loop end is
`max(-5, -10) = -5`, so the claimed invariant `loopEnd >= loopStart >= 0`
is broken by the code. -/
theorem setLoopRange_negative_input_breaks_invariant :
    (TransportState.setLoopRange .initial (-5) (-10)).1.loopStartSamples = 0 ∧
    (TransportState.setLoopRange .initial (-5) (-10)).1.loopEndSamples = -5 ∧
    ¬ (TransportState.setLoopRange .initial (-5) (-10)).1.loopStartSamples ≤
        (TransportState.setLoopRange .initial (-5) (-10)).1.loopEndSamples := by
  refine ⟨?_, ?_, ?_⟩ <;> norm_num [TransportState.setLoopRange]

/-- C10: `advancePosition(n)` leaves the transport completely unchanged
when the state is Stopped or Paused, and advances the sample position by
exactly `n` when the state is Playing or Recording. -/
theorem advancePosition_gated_by_state (t : TransportState) (n : ℤ) :
    (t.state = .Stopped ∨ t.state = .Paused → t.advancePosition n = t) ∧
    (t.state = .Playing ∨ t.state = .Recording →
      (t.advancePosition n).samplePosition = t.samplePosition + (n : ℚ)) := by
  constructor
  · rintro (h | h) <;>
      simp [TransportState.advancePosition, TransportState.isPlaying, h]
  · rintro (h | h) <;>
      simp [TransportState.advancePosition, TransportState.isPlaying, h]

/-- Witness for C10: a paused transport at position 7 is unchanged by
`advancePosition(512)`; a playing one moves to `7 + 512`. -/
theorem advancePosition_gated_by_state_witness :
    (⟨.Paused, 7, 120, 44100, ⟨4, 4⟩, false, 0, 0⟩ :
        TransportState).advancePosition 512 =
      ⟨.Paused, 7, 120, 44100, ⟨4, 4⟩, false, 0, 0⟩ ∧
    ((⟨.Playing, 7, 120, 44100, ⟨4, 4⟩, false, 0, 0⟩ :
        TransportState).advancePosition 512).samplePosition = 7 + ((512 : ℤ) : ℚ) :=
  ⟨(advancePosition_gated_by_state _ 512).1 (Or.inr rfl),
   (advancePosition_gated_by_state _ 512).2 (Or.inl rfl)⟩

/-! ## Audio buffers, metering and MIDI (Track.cpp) -/

/-- A `juce::AudioBuffer<float>` block: a list of channels, each a list
of samples. -/
abbrev Buffer := List (List ℚ)

/-- `juce::AudioBuffer::clear()`: zero every sample of every channel. -/
def clearBuffer (b : Buffer) : Buffer :=
  b.map fun ch => ch.map fun _ => 0

/-- `juce::AudioBuffer::getMagnitude(ch, 0, numSamples)`: the largest
absolute sample value of one channel (0 for an empty range). -/
def channelMagnitude (samples : List ℚ) : ℚ :=
  samples.foldl (fun acc x => max acc |x|) 0

/-- One step of `Track::updatePeakLevels` on one channel: if the block
magnitude exceeds the stored peak store it, otherwise decay the stored
peak by one percent. -/
def peakStep (current blockMag : ℚ) : ℚ :=
  if current < blockMag then blockMag else current * (99 / 100)

/-- `Track::updatePeakLevels`: apply `peakStep` to each of the first
`min(numChannels, 2)` channels; a channel the buffer does not have keeps
its stored peak. -/
def updatePeakLevels (peaks : ℚ × ℚ) (buffer : Buffer) : ℚ × ℚ :=
  (if 1 ≤ buffer.length then peakStep peaks.1 (channelMagnitude (buffer.getD 0 []))
   else peaks.1,
   if 2 ≤ buffer.length then peakStep peaks.2 (channelMagnitude (buffer.getD 1 []))
   else peaks.2)

/-- One entry of a `juce::MidiBuffer`: the message (modelled by its
status byte, the only byte the channel filter inspects) and its sample
position in the block. -/
structure MidiEvent where
  status : ℕ
  samplePosition : ℤ
deriving DecidableEq

/-- `juce::MidiMessage::getChannel()`: 1-16 for a channel message
(status nibble not 0xF), 0 for a system message. -/
def midiGetChannel (status : ℕ) : ℤ :=
  if status / 16 = 15 then 0 else (status % 16 : ℤ) + 1

/-- `juce::MidiMessage::isForChannel(ch)`: the low status nibble equals
`ch - 1` and the message is not a system message. -/
def midiIsForChannel (status : ℕ) (channel : ℤ) : Bool :=
  decide ((status % 16 : ℤ) = channel - 1) && decide (status / 16 ≠ 15)

/-- The channel-filter stage of `MidiTrack::processBlock` (Track.cpp
lines 324-333): when a specific channel is assigned, rebuild the buffer
keeping an event iff `getChannel() == midiChannel` or
`!isForChannel(midiChannel)`. -/
def midiChannelFilter (midiChannel : ℤ) (events : List MidiEvent) : List MidiEvent :=
  if 0 < midiChannel then
    events.filter fun e =>
      decide (midiGetChannel e.status = midiChannel) ||
        !(midiIsForChannel e.status midiChannel)
  else events

/-! ## Clips (Clip.cpp) -/

/-- Truncation toward zero, as `static_cast<juce::int64>` on a double. -/
def truncToInt (q : ℚ) : ℤ :=
  if q < 0 then -(⌊-q⌋) else ⌊q⌋

/-- A clip (Clip.h): name, colour, start position, length and source
offset in samples. `source` is the audio content an `AudioClip`'s
format-reader exposes, one list per channel; `none` models a base clip
or an `AudioClip` whose file could not be opened (`readerSource`
absent), whose `getAudio` is a no-op. -/
structure Clip where
  name : String := "Clip"
  colour : ℕ := 0xFF00D4FF
  startPosition : ℚ := 0
  length : ℚ := 0
  offset : ℚ := 0
  source : Option (List (List ℚ)) := none
deriving DecidableEq

/-- `Clip::containsPosition`: half-open interval
`[startPosition, startPosition + length)`. -/
def Clip.containsPosition (c : Clip) (position : ℚ) : Bool :=
  decide (c.startPosition ≤ position) &&
    decide (position < c.startPosition + c.length)

/-- Reading `n` samples of one source channel starting at sample index
`start`; positions outside the source read as silence (the reader
zero-fills past the end of the file). -/
def readSegment (data : List ℚ) (start : ℤ) (n : ℕ) : List ℚ :=
  (List.range n).map fun k =>
    if 0 ≤ start + (k : ℤ) then data.getD (start + (k : ℤ)).toNat 0 else 0

/-- `AudioClip::getAudio`: no reader or position outside the clip is a
no-op; otherwise re-seek to `playPosition - startPosition + offset` and
fill every buffer channel from the corresponding source channel. -/
def Clip.getAudio (c : Clip) (buffer : Buffer) (playPosition : ℚ) : Buffer :=
  match c.source with
  | none => buffer
  | some src =>
    if c.containsPosition playPosition then
      let readPos := truncToInt (playPosition - c.startPosition + c.offset)
      buffer.enum.map fun p => readSegment (src.getD p.1 []) readPos p.2.length
    else buffer

/-! ## Plugin slots and tracks (PluginSlot.cpp, Track.cpp) -/

/-- A loaded plugin instance: an arbitrary in-place rewrite of the audio
and MIDI buffers (`AudioPluginInstance::processBlock`). -/
structure PluginProc where
  run : Buffer → List MidiEvent → Buffer × List MidiEvent

/-- `PluginSlot`: at most one loaded plugin and an enabled flag; no
plugin means pass-through. -/
structure PluginSlot where
  plugin : Option PluginProc := none
  enabled : Bool := true

/-- `PluginSlot::processBlock`: run the plugin only when one is loaded
and the slot is enabled. -/
def PluginSlot.processBlock (s : PluginSlot) (b : Buffer) (m : List MidiEvent) :
    Buffer × List MidiEvent :=
  match s.plugin, s.enabled with
  | some p, true => p.run b m
  | _, _ => (b, m)

/-- The plugin-chain loop of the track `processBlock` bodies: each
enabled slot rewrites buffer and MIDI in insertion order. -/
def processChain (slots : List PluginSlot) (b : Buffer) (m : List MidiEvent) :
    Buffer × List MidiEvent :=
  slots.foldl (fun acc slot => if slot.enabled then slot.processBlock acc.1 acc.2 else acc)
    (b, m)

/-- The gain/pan loop of `AudioTrack::processBlock` (lines 238-243):
channel 0 gain is `volume * (1 - max(0, pan))`, channel 1 gain is
`volume * (1 + min(0, pan))`, any further channel gets plain `volume`. -/
def applyGainPan (volume pan : ℚ) (buffer : Buffer) : Buffer :=
  buffer.enum.map fun p =>
    let gain := volume * (if p.1 = 0 then 1 - max 0 pan else 1) *
      (if p.1 = 1 then 1 + min 0 pan else 1)
    p.2.map (· * gain)

/-- `enum class TrackType`. -/
inductive TrackType where
  | Audio
  | Midi
  | Group
  | Master
deriving DecidableEq

/-- `static_cast<int>` of a `TrackType`. -/
def TrackType.toInt : TrackType → ℤ
  | .Audio => 0
  | .Midi => 1
  | .Group => 2
  | .Master => 3

/-- The track fields (Track.h lines 137-157) together with the
`MidiTrack` channel filter. `id` models the `juce::Uuid` drawn at
construction; `outputBus` likewise. -/
structure Track where
  type : TrackType
  name : String
  colour : ℕ := 0xFF00D4FF
  id : ℕ
  index : ℤ := 0
  solo : Bool := false
  muted : Bool := false
  armed : Bool := false
  volume : ℚ := 1
  pan : ℚ := 0
  outputBus : ℕ := 0
  pluginSlots : List PluginSlot := []
  clips : List Clip := []
  peakLevels : ℚ × ℚ := (0, 0)
  midiChannel : ℤ := 0

/-- The `Track` constructor: type and name as given, a fresh identity,
every other field at its declared initial value. -/
def Track.construct (type : TrackType) (name : String) (freshId : ℕ) : Track :=
  { type := type, name := name, id := freshId }

/-- `Track::getClipAtPosition`: linear scan, first clip containing the
position wins. -/
def getClipAtPosition (clips : List Clip) (samplePosition : ℚ) : Option Clip :=
  clips.find? fun c => c.containsPosition samplePosition

/-- The full rendering sequence of `AudioTrack::processBlock` (lines
224-245): render the active clip at the transport position, run the
plugin chain, apply gain and pan, update the peak meter. -/
def audioFullRender (t : Track) (buffer : Buffer) (midi : List MidiEvent)
    (transportPos : ℚ) : Buffer × List MidiEvent × (ℚ × ℚ) :=
  let b1 := match getClipAtPosition t.clips transportPos with
            | some clip => clip.getAudio buffer transportPos
            | none => buffer
  let bm := processChain t.pluginSlots b1 midi
  let b3 := applyGainPan t.volume t.pan bm.1
  (b3, bm.2, updatePeakLevels t.peakLevels b3)

/-- `AudioTrack::processBlock` (lines 214-246): the gate at line 219
tests the track's own flags `muted && !solo`; when it holds the buffer
is cleared and the call returns, otherwise the full rendering sequence
runs. The result carries the output buffer, the (possibly
plugin-rewritten) MIDI buffer and the new peak-meter values. -/
def audioProcessBlock (t : Track) (buffer : Buffer) (midi : List MidiEvent)
    (transportPos : ℚ) : Buffer × List MidiEvent × (ℚ × ℚ) :=
  if t.muted && !t.solo then (clearBuffer buffer, midi, t.peakLevels)
  else
    let b1 := match getClipAtPosition t.clips transportPos with
              | some clip => clip.getAudio buffer transportPos
              | none => buffer
    let bm := processChain t.pluginSlots b1 midi
    let b3 := applyGainPan t.volume t.pan bm.1
    (b3, bm.2, updatePeakLevels t.peakLevels b3)

/-! ## Track collection audibility (TrackList.cpp) -/

/-- The track-collection fields the embedded operations touch
(TrackList.h): the ordered tracks, the selected index and the
default-name counter. -/
structure TrackList where
  tracks : List Track := []
  selectedTrackIndex : ℤ := -1
  nextTrackNumber : ℕ := 1

/-- `TrackList::hasAnySolo`. -/
def hasAnySolo (tracks : List Track) : Bool :=
  tracks.any (·.solo)

/-- `TrackList::isTrackAudible` (lines 205-221): out of range is
inaudible; a muted track is inaudible; when any track is soloed only
soloed tracks are audible; otherwise audible. -/
def isTrackAudible (tl : TrackList) (index : ℕ) : Bool :=
  match tl.tracks.get? index with
  | none => false
  | some t => if t.muted then false else if hasAnySolo tl.tracks then t.solo else true

/-- C1 counterexample: a muted-and-soloed track is inaudible under the
collection-wide rule, yet `AudioTrack::processBlock` does not clear the
buffer and return — it performs the full rendering sequence (the input
samples survive and the peak meter is updated). -/
theorem collection_inaudible_track_still_renders :
    isTrackAudible
        ⟨[{ Track.construct .Audio "A" 1 with muted := true, solo := true }], -1, 1⟩ 0 =
      false ∧
    (audioProcessBlock { Track.construct .Audio "A" 1 with muted := true, solo := true }
        [[(1 : ℚ)]] [] 0).1 = [[(1 : ℚ)]] ∧
    (audioProcessBlock { Track.construct .Audio "A" 1 with muted := true, solo := true }
        [[(1 : ℚ)]] [] 0).2.2 = (1, 0) ∧
    clearBuffer [[(1 : ℚ)]] = [[(0 : ℚ)]] := by
  refine ⟨rfl, ?_, ?_, rfl⟩ <;>
    norm_num [audioProcessBlock, Track.construct, getClipAtPosition, List.find?,
      processChain, List.foldl, applyGainPan, List.enum, List.enumFrom,
      updatePeakLevels, peakStep, channelMagnitude, clearBuffer, max_def, min_def,
      abs_of_nonneg]

/-- C1 (amended): `AudioTrack::processBlock` decides its early-out from
the track's own flags, not from the collection-wide audibility rule: it
clears the buffer and returns iff the track is muted and not soloed; in
every other case — including a track that the collection rule declares
inaudible because it is muted-and-soloed or because another track is
soloed — it performs the full rendering sequence. Since a
collection-audible track is never muted, every audible track performs
the full sequence. -/
theorem audioProcessBlock_gates_on_own_flags (t : Track) (buffer : Buffer)
    (midi : List MidiEvent) (pos : ℚ) :
    (t.muted = true ∧ t.solo = false →
      audioProcessBlock t buffer midi pos = (clearBuffer buffer, midi, t.peakLevels)) ∧
    (¬(t.muted = true ∧ t.solo = false) →
      audioProcessBlock t buffer midi pos = audioFullRender t buffer midi pos) ∧
    (∀ (tl : TrackList) (i : ℕ), tl.tracks.get? i = some t →
      isTrackAudible tl i = true →
      audioProcessBlock t buffer midi pos = audioFullRender t buffer midi pos) := by
  have hfull : (t.muted && !t.solo) = false →
      audioProcessBlock t buffer midi pos = audioFullRender t buffer midi pos := by
    intro hgate
    simp [audioProcessBlock, audioFullRender, hgate]
  refine ⟨?_, ?_, ?_⟩
  · rintro ⟨hm, hs⟩
    simp [audioProcessBlock, hm, hs]
  · intro h
    apply hfull
    cases hm : t.muted <;> cases hs : t.solo <;> simp_all
  · intro tl i hget haud
    apply hfull
    unfold isTrackAudible at haud
    rw [hget] at haud
    by_cases hm : t.muted
    · simp [hm] at haud
    · simp [hm]

/-- Witness for C1 (amended): a muted non-soloed track clears a one-sample
buffer; an unmuted track alone in the collection is audible and renders
fully. -/
theorem audioProcessBlock_gates_on_own_flags_witness :
    audioProcessBlock { Track.construct .Audio "A" 1 with muted := true }
        [[(1 : ℚ)]] [] 0 = (clearBuffer [[(1 : ℚ)]], [], (0, 0)) ∧
    audioProcessBlock (Track.construct .Audio "B" 2) [[(1 : ℚ)]] [] 0 =
      audioFullRender (Track.construct .Audio "B" 2) [[(1 : ℚ)]] [] 0 :=
  ⟨(audioProcessBlock_gates_on_own_flags _ _ _ _).1 ⟨rfl, rfl⟩,
   (audioProcessBlock_gates_on_own_flags _ _ _ _).2.2
     ⟨[Track.construct .Audio "B" 2], -1, 1⟩ 0 rfl rfl⟩

/-- C3 counterexample: previous peak 1, block magnitude 1 (channel 0 of
`[[1]]`): the code stores `1 * 0.99 = 0.99`, but `max(1 * 0.99, 1) = 1`,
refuting `peak = max(currentPeak * 0.99, blockMagnitude)`. -/
theorem updatePeakLevels_not_max_formula :
    channelMagnitude [(1 : ℚ)] = 1 ∧
    (updatePeakLevels (1, 0) [[(1 : ℚ)]]).1 = 99 / 100 ∧
    (updatePeakLevels (1, 0) [[(1 : ℚ)]]).1 ≠ max ((1 : ℚ) * (99 / 100)) 1 := by
  refine ⟨?_, ?_, ?_⟩ <;>
    norm_num [updatePeakLevels, peakStep, channelMagnitude, List.foldl, abs_of_nonneg,
      max_def]

/-- The one-channel peak rule, characterized against the spec's `max`
formula: for a nonnegative stored peak `p`, the stored result is the
block magnitude `m` when `m > p` and the decayed `p * 0.99` otherwise;
this coincides with `max(p * 0.99, m)` exactly when `m > p` or
`m ≤ p * 0.99`, and differs on `p * 0.99 < m ≤ p`. -/
theorem peakStep_characterization (p m : ℚ) (hp : 0 ≤ p) :
    peakStep p m = (if p < m then m else p * (99 / 100)) ∧
    (peakStep p m = max (p * (99 / 100)) m ↔ (p < m ∨ m ≤ p * (99 / 100))) := by
  have hdecay : p * (99 / 100) ≤ p := by linarith
  refine ⟨rfl, ?_⟩
  rcases lt_or_le p m with h | h
  · rw [peakStep, if_pos h, max_eq_right (le_trans hdecay (le_of_lt h))]
    exact ⟨fun _ => Or.inl h, fun _ => rfl⟩
  · rw [peakStep, if_neg (not_lt.mpr h)]
    rcases le_or_lt m (p * (99 / 100)) with h2 | h2
    · rw [max_eq_left h2]
      exact ⟨fun _ => Or.inr h2, fun _ => rfl⟩
    · rw [max_eq_right (le_of_lt h2)]
      constructor
      · intro hEq
        exact absurd hEq (ne_of_lt h2)
      · rintro (h3 | h3)
        · exact absurd h3 (not_lt.mpr h)
        · exact absurd h3 (not_le.mpr h2)

/-- C3 (amended): after one `Track::updatePeakLevels` call, for each
channel `ch < 2` present in the block, the new stored peak is the block
magnitude `m` when `m > p` and `p * 0.99` otherwise (`p` the previous
stored peak); it equals the spec's `max(p * 0.99, m)` exactly when
`m > p` or `m ≤ p * 0.99`. -/
theorem updatePeakLevels_characterization (peaks : ℚ × ℚ) (buf : Buffer)
    (hp1 : 0 ≤ peaks.1) (hp2 : 0 ≤ peaks.2) :
    (1 ≤ buf.length →
      (updatePeakLevels peaks buf).1 =
        (if peaks.1 < channelMagnitude (buf.getD 0 []) then channelMagnitude (buf.getD 0 [])
         else peaks.1 * (99 / 100)) ∧
      ((updatePeakLevels peaks buf).1 =
          max (peaks.1 * (99 / 100)) (channelMagnitude (buf.getD 0 [])) ↔
        (peaks.1 < channelMagnitude (buf.getD 0 []) ∨
          channelMagnitude (buf.getD 0 []) ≤ peaks.1 * (99 / 100)))) ∧
    (2 ≤ buf.length →
      (updatePeakLevels peaks buf).2 =
        (if peaks.2 < channelMagnitude (buf.getD 1 []) then channelMagnitude (buf.getD 1 [])
         else peaks.2 * (99 / 100)) ∧
      ((updatePeakLevels peaks buf).2 =
          max (peaks.2 * (99 / 100)) (channelMagnitude (buf.getD 1 [])) ↔
        (peaks.2 < channelMagnitude (buf.getD 1 []) ∨
          channelMagnitude (buf.getD 1 []) ≤ peaks.2 * (99 / 100)))) := by
  constructor
  · intro h1
    have := peakStep_characterization peaks.1 (channelMagnitude (buf.getD 0 [])) hp1
    rw [updatePeakLevels] at *
    simp only [if_pos h1]
    exact this
  · intro h2
    have := peakStep_characterization peaks.2 (channelMagnitude (buf.getD 1 [])) hp2
    rw [updatePeakLevels] at *
    simp only [if_pos h2]
    exact this

/-- Witness for C3 (amended) at stored peaks `(1, 1/2)` and block
`[[3/4], [2]]`: channel 0 decays to `0.99`, channel 1 captures `2`. -/
theorem updatePeakLevels_characterization_witness :
    (0 : ℚ) ≤ 1 ∧ (0 : ℚ) ≤ 1 / 2 ∧
    (updatePeakLevels (1, 1 / 2) [[(3 / 4 : ℚ)], [2]]).1 = 1 * (99 / 100) ∧
    (updatePeakLevels (1, 1 / 2) [[(3 / 4 : ℚ)], [2]]).2 = 2 := by
  refine ⟨by norm_num, by norm_num, ?_, ?_⟩
  · have h := (updatePeakLevels_characterization (1, 1 / 2) [[(3 / 4 : ℚ)], [2]]
      (by norm_num) (by norm_num)).1 (by norm_num)
    rw [h.1]
    norm_num [channelMagnitude, List.foldl, abs_of_nonneg, max_def]
  · have h := (updatePeakLevels_characterization (1, 1 / 2) [[(3 / 4 : ℚ)], [2]]
      (by norm_num) (by norm_num)).2 (by norm_num)
    rw [h.1]
    norm_num [channelMagnitude, List.foldl, abs_of_nonneg, max_def]

/-- C4: the channel-filter condition
`getChannel() == midiChannel || !isForChannel(midiChannel)` is a
tautology, so `MidiTrack::processBlock` never drops any event — events
addressed to other specific channels are kept, contradicting the claimed
filtering. -/
theorem midiChannelFilter_drops_nothing (midiChannel : ℤ) (events : List MidiEvent) :
    midiChannelFilter midiChannel events = events := by
  unfold midiChannelFilter
  split
  · apply List.filter_eq_self.mpr
    intro e _
    by_cases h15 : e.status / 16 = 15
    · simp [midiIsForChannel, h15]
    · by_cases heq : (e.status % 16 : ℤ) + 1 = midiChannel
      · simp [midiGetChannel, h15, heq]
      · have hne : (e.status % 16 : ℤ) ≠ midiChannel - 1 := by omega
        simp [midiGetChannel, midiIsForChannel, h15, hne]
  · rfl

/-! ## Generic property representation (juce::var / DynamicObject) -/

/-- A `juce::var` value as the serialization code uses it: void, string,
number (double/float), int, bool, array, or a `DynamicObject` property
bag. `juce::Uuid` and `juce::Colour` round-trip through their string
form as the identity on the underlying word, modelled by storing that
word. -/
inductive PVal where
  | vVoid
  | vStr (s : String)
  | vNum (q : ℚ)
  | vInt (n : ℤ)
  | vBool (b : Bool)
  | vArr (xs : List PVal)
  | vObj (props : List (String × PVal))

/-- `DynamicObject::getProperty`: look up a named property; a missing
property is the void var. -/
def getProp (props : List (String × PVal)) (key : String) : PVal :=
  match props.find? (fun p => p.1 == key) with
  | some p => p.2
  | none => .vVoid

/-- `var::toString` conversion as used by `fromVar` (only the matching
case is ever exercised by the embedded serializers). -/
def PVal.asStr : PVal → String
  | .vStr s => s
  | _ => ""

/-- `static_cast<float>`/`static_cast<double>` of a var. -/
def PVal.asNum : PVal → ℚ
  | .vNum q => q
  | .vInt n => (n : ℚ)
  | _ => 0

/-- `static_cast<int>` (or the modelled Uuid/Colour word) of a var. -/
def PVal.asInt : PVal → ℤ
  | .vInt n => n
  | .vNum q => truncToInt q
  | _ => 0

/-- `bool` conversion of a var. -/
def PVal.asBool : PVal → Bool
  | .vBool b => b
  | .vInt n => decide (n ≠ 0)
  | _ => false

/-- `var::getArray`: `some` only for an array var. -/
def PVal.asArr : PVal → Option (List PVal)
  | .vArr xs => some xs
  | _ => none

/-- `Clip::toVar`: name, colour, startPosition, length, offset. (Clip
subclasses append further properties — a type tag and a file reference
or event list — which the base `Clip::fromVar` never reads.) -/
def Clip.toVar (c : Clip) : PVal :=
  .vObj [("name", .vStr c.name),
         ("colour", .vInt (c.colour : ℤ)),
         ("startPosition", .vNum c.startPosition),
         ("length", .vNum c.length),
         ("offset", .vNum c.offset)]

/-- `Clip::fromVar`: read the five base properties back; a non-object
var leaves the clip untouched. The rebuilt clip is a base `Clip`, so it
has no reader source. -/
def Clip.fromVar (c : Clip) (data : PVal) : Clip :=
  match data with
  | .vObj props =>
    { c with name := (getProp props "name").asStr,
             colour := (getProp props "colour").asInt.toNat,
             startPosition := (getProp props "startPosition").asNum,
             length := (getProp props "length").asNum,
             offset := (getProp props "offset").asNum }
  | _ => c

/-- `Track::toVar` (Track.cpp lines 150-171): every scalar field plus
the clip array. -/
def Track.toVar (t : Track) : PVal :=
  .vObj [("type", .vInt t.type.toInt),
         ("name", .vStr t.name),
         ("colour", .vInt (t.colour : ℤ)),
         ("id", .vInt (t.id : ℤ)),
         ("solo", .vBool t.solo),
         ("muted", .vBool t.muted),
         ("armed", .vBool t.armed),
         ("volume", .vNum t.volume),
         ("pan", .vNum t.pan),
         ("outputBus", .vInt (t.outputBus : ℤ)),
         ("clips", .vArr (t.clips.map Clip.toVar))]

/-- `Track::fromVar` (Track.cpp lines 173-195): read every scalar field
back — including the identity — clear the clip list and rebuild it from
the clip array, each clip re-hydrated into a fresh base `Clip`. -/
def Track.fromVar (t : Track) (data : PVal) : Track :=
  match data with
  | .vObj props =>
    { t with name := (getProp props "name").asStr,
             colour := (getProp props "colour").asInt.toNat,
             id := (getProp props "id").asInt.toNat,
             solo := (getProp props "solo").asBool,
             muted := (getProp props "muted").asBool,
             armed := (getProp props "armed").asBool,
             volume := (getProp props "volume").asNum,
             pan := (getProp props "pan").asNum,
             outputBus := (getProp props "outputBus").asInt.toNat,
             clips := match (getProp props "clips").asArr with
                      | some xs => xs.map fun v => Clip.fromVar {} v
                      | none => [] }
  | _ => t

/-- Helper for C8: per-clip round-trip of the position scalars. -/
theorem clip_list_roundtrip (cs : List Clip) :
    ((cs.map Clip.toVar).map fun v => Clip.fromVar {} v).map
        (fun c => (c.startPosition, c.length, c.offset)) =
      cs.map fun c => (c.startPosition, c.length, c.offset) := by
  induction cs with
  | nil => rfl
  | cons c rest ih =>
    simp only [List.map_cons, List.cons.injEq]
    exact ⟨rfl, ih⟩

/-- C8: exporting any track with `toVar` and re-hydrating any fresh
instance from the result with `fromVar` reproduces name, colour, volume,
pan and the solo/mute/armed flags, and yields the same number of clips
with identical start position, length and offset. -/
theorem track_toVar_fromVar_roundtrip (t fresh : Track) :
    (Track.fromVar fresh (Track.toVar t)).name = t.name ∧
    (Track.fromVar fresh (Track.toVar t)).colour = t.colour ∧
    (Track.fromVar fresh (Track.toVar t)).volume = t.volume ∧
    (Track.fromVar fresh (Track.toVar t)).pan = t.pan ∧
    (Track.fromVar fresh (Track.toVar t)).solo = t.solo ∧
    (Track.fromVar fresh (Track.toVar t)).muted = t.muted ∧
    (Track.fromVar fresh (Track.toVar t)).armed = t.armed ∧
    (Track.fromVar fresh (Track.toVar t)).clips.length = t.clips.length ∧
    (Track.fromVar fresh (Track.toVar t)).clips.map
        (fun c => (c.startPosition, c.length, c.offset)) =
      t.clips.map fun c => (c.startPosition, c.length, c.offset) := by
  have hclips : (Track.fromVar fresh (Track.toVar t)).clips =
      (t.clips.map Clip.toVar).map fun v => Clip.fromVar {} v := rfl
  refine ⟨rfl, rfl, rfl, rfl, rfl, rfl, rfl, ?_, ?_⟩
  · rw [hclips]
    simp
  · rw [hclips]
    exact clip_list_roundtrip t.clips

/-! ## Track duplication (TrackList.cpp) -/

/-- `std::vector::insert(begin() + i, x)`. -/
def insertAt (l : List Track) (i : ℕ) (x : Track) : List Track :=
  l.take i ++ x :: l.drop i

/-- The loop body of `TrackList::updateTrackIndices`: renumber from a
given starting index. -/
def setIndicesFrom : ℤ → List Track → List Track
  | _, [] => []
  | i, t :: ts => { t with index := i } :: setIndicesFrom (i + 1) ts

/-- `TrackList::updateTrackIndices`: renumber every track 0..N-1. -/
def updateTrackIndices (tracks : List Track) : List Track :=
  setIndicesFrom 0 tracks

/-- `TrackList::duplicateTrack` (lines 133-167): bounds-check; serialize
the source track; construct a fresh instance of the same concrete type
(drawing a fresh identity) named with a " Copy" suffix — the Master type
hits the `default:` arm and returns; re-hydrate the fresh instance from
the serialized data with `fromVar`; re-apply the " Copy" name; insert at
`index + 1` and renumber all cached indices. -/
def TrackList.duplicateTrack (tl : TrackList) (index : ℕ) (freshId : ℕ) : TrackList :=
  if h : index < tl.tracks.length then
    let original := tl.tracks.get ⟨index, h⟩
    let data := original.toVar
    match original.type with
    | TrackType.Master => tl
    | ty =>
      let fresh := Track.construct ty (original.name ++ " Copy") freshId
      let hydrated := Track.fromVar fresh data
      let renamed := { hydrated with name := original.name ++ " Copy" }
      let newIndex := index + 1
      let positioned := { renamed with index := (newIndex : ℤ) }
      { tl with tracks := updateTrackIndices (insertAt tl.tracks newIndex positioned) }
  else tl

/-- Renumbering the cached indices never changes any track's identity. -/
theorem setIndicesFrom_map_id (i : ℤ) (l : List Track) :
    (setIndicesFrom i l).map Track.id = l.map Track.id := by
  induction l generalizing i with
  | nil => rfl
  | cons t ts ih =>
    simp only [setIndicesFrom, List.map_cons, List.cons.injEq]
    exact ⟨trivial, ih (i + 1)⟩

/-- `insertAt` commutes with projecting the identity. -/
theorem insertAt_map_id (l : List Track) (i : ℕ) (x : Track) :
    (insertAt l i x).map Track.id = (l.map Track.id).take i ++ x.id :: (l.map Track.id).drop i := by
  simp [insertAt, List.map_take, List.map_drop]

/-- C7 counterexample: duplicating the single track of identity 5 (with
fresh identity 99 drawn by the constructor) yields a list whose two
tracks both carry identity 5 — `fromVar` overwrote the fresh identity
with the serialized one, so the original and its copy do NOT have
distinct identities. -/
theorem duplicateTrack_identity_not_distinct :
    ((TrackList.duplicateTrack ⟨[Track.construct .Audio "A" 5], -1, 1⟩ 0 99).tracks.get? 0).map
        Track.id = some 5 ∧
    ((TrackList.duplicateTrack ⟨[Track.construct .Audio "A" 5], -1, 1⟩ 0 99).tracks.get? 1).map
        Track.id = some 5 ∧
    ((TrackList.duplicateTrack ⟨[Track.construct .Audio "A" 5], -1, 1⟩ 0 99).tracks.get? 0).map
        Track.id =
      ((TrackList.duplicateTrack ⟨[Track.construct .Audio "A" 5], -1, 1⟩ 0 99).tracks.get? 1).map
        Track.id := by
  refine ⟨rfl, rfl, rfl⟩

/-- C7 (amended): `Track::fromVar` reassigns the identity from the
property bag, and `duplicateTrack` re-hydrates the fresh instance with
`fromVar`, so the copy inserted at `i + 1` carries the same identity as
the original — the identity sequence of the collection becomes the old
sequence with the original's identity inserted again (never the freshly
drawn one). -/
theorem duplicateTrack_copies_source_identity (tl : TrackList) (i freshId : ℕ)
    (orig : Track) (hget : tl.tracks.get? i = some orig)
    (hty : orig.type ≠ TrackType.Master) :
    (tl.duplicateTrack i freshId).tracks.map Track.id =
      (tl.tracks.map Track.id).take (i + 1) ++
        orig.id :: (tl.tracks.map Track.id).drop (i + 1) := by
  have hlt : i < tl.tracks.length := (List.get?_eq_some.mp hget).1
  have hgetEq : tl.tracks.get ⟨i, hlt⟩ = orig := by
    have := (List.get?_eq_some.mp hget).2
    exact this
  have hid : ∀ fresh : Track, (Track.fromVar fresh orig.toVar).id = orig.id := fun _ => rfl
  unfold TrackList.duplicateTrack
  rw [dif_pos hlt, hgetEq]
  cases hc : orig.type with
  | Master => exact absurd hc hty
  | Audio =>
    simp only [updateTrackIndices, setIndicesFrom_map_id, insertAt_map_id, hid]
  | Midi =>
    simp only [updateTrackIndices, setIndicesFrom_map_id, insertAt_map_id, hid]
  | Group =>
    simp only [updateTrackIndices, setIndicesFrom_map_id, insertAt_map_id, hid]

/-- Witness for C7 (amended) on a two-track collection: duplicating the
first track (identity 5, fresh identity 99) produces identities
`[5, 5, 8]`. -/
theorem duplicateTrack_copies_source_identity_witness :
    (TrackList.duplicateTrack
        ⟨[Track.construct .Audio "A" 5, Track.construct .Midi "B" 8], -1, 1⟩ 0 99).tracks.map
        Track.id = [5, 5, 8] :=
  duplicateTrack_copies_source_identity
    ⟨[Track.construct .Audio "A" 5, Track.construct .Midi "B" 8], -1, 1⟩ 0 99
    (Track.construct .Audio "A" 5) rfl (by decide)

end IDAW

namespace PentaGroove

/-- `TempoEstimator::Config` as TempoEstimator.cpp uses it: sample rate,
tempo bounds, adaptation rate (floats, modelled as rationals) and the
history size bound (`size_t`). -/
structure Config where
  sampleRate : ℚ
  minTempo : ℚ
  maxTempo : ℚ
  adaptationRate : ℚ
  historySize : ℕ

/-- `TempoEstimator` state: the onset-timestamp history (uint64 sample
positions), the running tempo estimate, the confidence and the last
onset position. -/
structure TempoEstimator where
  config : Config
  onsetHistory : List ℕ
  currentTempo : ℚ
  confidence : ℚ
  lastOnsetPosition : ℕ

/-- The `TempoEstimator` constructor: empty history (the `reserve` call
only pre-allocates capacity), tempo 120, confidence 0. -/
def TempoEstimator.construct (c : Config) : TempoEstimator :=
  ⟨c, [], 120, 0, 0⟩

/-- `uint64_t` subtraction with wraparound (onset positions are uint64,
so both operands are below `2 ^ 64`). -/
def u64sub (a b : ℕ) : ℕ :=
  (a + 2 ^ 64 - b) % 2 ^ 64

/-- The inter-onset intervals in seconds: for `i = 1 .. size-1`,
`(history[i] - history[i-1]) / sampleRate`. -/
def interOnsetIntervals (history : List ℕ) (sampleRate : ℚ) : List ℚ :=
  (history.zip history.tail).map fun p => (u64sub p.2 p.1 : ℚ) / sampleRate

/-- `TempoEstimator::autocorrelate`: despite the name, the median of the
sorted intervals (mean of the two middle entries for an even count above
one). -/
def autocorrelate (intervals : List ℚ) : ℚ :=
  if intervals.isEmpty then 0
  else
    let sorted := List.insertionSort (· ≤ ·) intervals
    let medianIdx := sorted.length / 2
    if intervals.length % 2 = 0 ∧ 1 < intervals.length then
      (sorted.getD (medianIdx - 1) 0 + sorted.getD medianIdx 0) / 2
    else sorted.getD medianIdx 0

/-- `TempoEstimator::estimateTempo`: with at least 4 onsets, take the
median inter-onset interval; when positive, convert to BPM, clamp to the
configured bounds, blend with the one-pole filter, and recompute the
confidence `min(1, 1 / (1 + variance * 10))` from the interval variance
about the median. Never touches the onset history. -/
def estimateTempo (e : TempoEstimator) : TempoEstimator :=
  if e.onsetHistory.length < 4 then e
  else
    let intervals := interOnsetIntervals e.onsetHistory e.config.sampleRate
    let bestInterval := autocorrelate intervals
    if 0 < bestInterval then
      let estimated := max e.config.minTempo (min e.config.maxTempo (60 / bestInterval))
      let newTempo := e.currentTempo * (1 - e.config.adaptationRate) +
        estimated * e.config.adaptationRate
      let variance :=
        (intervals.foldl (fun a x => a + (x - bestInterval) * (x - bestInterval)) 0) /
          (intervals.length : ℚ)
      let conf := min 1 (1 / (1 + variance * 10))
      { e with currentTempo := newTempo, confidence := conf }
    else e

/-- `TempoEstimator::addOnset`: push the timestamp, evict one oldest
entry when the length now exceeds `config.historySize`, record the last
onset, and re-estimate once at least 4 onsets are buffered. -/
def TempoEstimator.addOnset (e : TempoEstimator) (samplePosition : ℕ) : TempoEstimator :=
  let pushed := e.onsetHistory ++ [samplePosition]
  let trimmed := if e.config.historySize < pushed.length then pushed.drop 1 else pushed
  let e1 := { e with onsetHistory := trimmed, lastOnsetPosition := samplePosition }
  if 4 ≤ e1.onsetHistory.length then estimateTempo e1 else e1

/-- `TempoEstimator::updateConfig`: replace the configuration; the
`reserve(config.historySize)` call only adjusts vector capacity and
never removes stored onsets. -/
def TempoEstimator.updateConfig (e : TempoEstimator) (c : Config) : TempoEstimator :=
  { e with config := c }

/-- `estimateTempo` never modifies the onset history. -/
theorem estimateTempo_onsetHistory (e : TempoEstimator) :
    (estimateTempo e).onsetHistory = e.onsetHistory := by
  unfold estimateTempo
  split
  · rfl
  · by_cases hb :
      0 < autocorrelate (interOnsetIntervals e.onsetHistory e.config.sampleRate)
    · simp [hb]
    · simp [hb]

/-- `estimateTempo` never modifies the configuration. -/
theorem estimateTempo_config (e : TempoEstimator) :
    (estimateTempo e).config = e.config := by
  unfold estimateTempo
  split
  · rfl
  · by_cases hb :
      0 < autocorrelate (interOnsetIntervals e.onsetHistory e.config.sampleRate)
    · simp [hb]
    · simp [hb]

/-- C9 counterexample: an estimator configured with history size 5 and
fed 5 onsets holds 5 timestamps; after `updateConfig` lowers the bound
to 4, the history still holds all 5 — more than `c.historySize` — and a
further `addOnset` still leaves 5 entries, so neither the call itself
nor subsequent onsets re-establish the new bound. -/
theorem updateConfig_does_not_reapply_bound :
    ((((((TempoEstimator.construct ⟨44100, 40, 240, 1 / 2, 5⟩).addOnset 0).addOnset
          44100).addOnset 88200).addOnset 132300).addOnset 176400).onsetHistory.length = 5 ∧
    (((((((TempoEstimator.construct ⟨44100, 40, 240, 1 / 2, 5⟩).addOnset 0).addOnset
          44100).addOnset 88200).addOnset 132300).addOnset 176400).updateConfig
        ⟨44100, 40, 240, 1 / 2, 4⟩).onsetHistory.length = 5 ∧
    ((⟨44100, 40, 240, 1 / 2, 4⟩ : Config).historySize <
      (((((((TempoEstimator.construct ⟨44100, 40, 240, 1 / 2, 5⟩).addOnset 0).addOnset
            44100).addOnset 88200).addOnset 132300).addOnset 176400).updateConfig
          ⟨44100, 40, 240, 1 / 2, 4⟩).onsetHistory.length) ∧
    ((((((((TempoEstimator.construct ⟨44100, 40, 240, 1 / 2, 5⟩).addOnset 0).addOnset
          44100).addOnset 88200).addOnset 132300).addOnset 176400).updateConfig
        ⟨44100, 40, 240, 1 / 2, 4⟩).addOnset 220500).onsetHistory.length = 5 := by
  refine ⟨?_, ?_, ?_, ?_⟩ <;>
    simp [TempoEstimator.construct, TempoEstimator.addOnset, TempoEstimator.updateConfig,
      estimateTempo_onsetHistory, estimateTempo_config]

/-- C9 (amended): `updateConfig` replaces the configuration but leaves
the onset history untouched, so immediately after the call the history
may exceed the new `historySize`; each subsequent `addOnset` appends one
timestamp and evicts exactly one oldest entry when the length exceeds
the bound, so the length grows by one while below the bound and
otherwise stays constant — an excess over a lowered bound is never
worked off. -/
theorem updateConfig_addOnset_history (e : TempoEstimator) (c : Config) (p : ℕ) :
    (e.updateConfig c).onsetHistory = e.onsetHistory ∧
    ((e.updateConfig c).addOnset p).onsetHistory =
      (if c.historySize < e.onsetHistory.length + 1
       then (e.onsetHistory ++ [p]).drop 1 else e.onsetHistory ++ [p]) ∧
    ((e.updateConfig c).addOnset p).onsetHistory.length =
      (if e.onsetHistory.length < c.historySize
       then e.onsetHistory.length + 1 else e.onsetHistory.length) := by
  have hist : ∀ est : TempoEstimator, ∀ q : ℕ,
      (est.addOnset q).onsetHistory =
        (if est.config.historySize < est.onsetHistory.length + 1
         then (est.onsetHistory ++ [q]).drop 1 else est.onsetHistory ++ [q]) := by
    intro est q
    unfold TempoEstimator.addOnset
    simp only [List.length_append, List.length_cons, List.length_nil]
    split
    · split
      · rw [estimateTempo_onsetHistory]
      · rfl
    · split
      · rw [estimateTempo_onsetHistory]
      · rfl
  refine ⟨rfl, hist (e.updateConfig c) p, ?_⟩
  rw [hist (e.updateConfig c) p]
  simp only [TempoEstimator.updateConfig]
  split
  · rename_i h
    rw [if_neg (by omega)]
    simp [List.length_drop]
  · rename_i h
    rw [if_pos (by omega)]
    simp

end PentaGroove
